import Mathlib

/-!
Verification development for the withings-cli OAuth2 core: the error
classification, token lifecycle, multi-tier credential resolution, config
store and callback-wait discipline, shallowly embedded from the Go sources
under cmd/ and internal/auth/.
-/

namespace WithingsCLI

/-! ## Error model

Go errors with wrapping, embedded from src/unnamed/part_018 (the
networkError and apiError marker wrapper types with their Unwrap methods),
fmt.Errorf with %w, and errors.Join. -/

/-- A Go error value: a plain message, a %w-wrap, one of the two marker
wrapper types of src/unnamed/part_018, or an errors.Join of two errors. -/
inductive GoError where
  | base (msg : String)
  | wrap (msg : String) (cause : GoError)
  | network (cause : GoError)
  | api (cause : GoError)
  | joined (first second : GoError)
deriving DecidableEq

/-- errors.As with a networkError target: walks the Unwrap chain (both
branches of a join) looking for the networkError marker type. -/
def isNetworkErr : GoError → Bool
  | .network _ => true
  | .api cause => isNetworkErr cause
  | .wrap _ cause => isNetworkErr cause
  | .joined first second => isNetworkErr first || isNetworkErr second
  | .base _ => false

/-- errors.As with an apiError target: walks the Unwrap chain (both
branches of a join) looking for the apiError marker type. -/
def isAPIErr : GoError → Bool
  | .api _ => true
  | .network cause => isAPIErr cause
  | .wrap _ cause => isAPIErr cause
  | .joined first second => isAPIErr first || isAPIErr second
  | .base _ => false

/-! Exit codes from src/unnamed/part_001 (package cmd) and
src/internal/app/app.go, which agree. -/

def exitCodeSuccess : Nat := 0
def exitCodeFailure : Nat := 1
def exitCodeUsage : Nat := 2
def exitCodeAuth : Nat := 3
def exitCodeNetwork : Nat := 4
def exitCodeAPI : Nat := 5

/-- exitError couples an exit code with an error
(src/unnamed/part_001, src/internal/app/app.go). -/
structure exitError where
  code : Nat
  err : GoError
deriving DecidableEq

def newExitError (code : Nat) (err : GoError) : exitError :=
  { code := code, err := err }

/-! Sentinel errors from src/cmd/auth_errors.go. -/

def errAuthTimedOut : GoError := .base "authorization timed out"
def errStateMismatch : GoError := .base "state mismatch"
def errClientCredentialsMissing : GoError := .base "missing client ID or secret"
def errTokenRequestFailed : GoError := .base "token request failed"
def errWithingsAPI : GoError := .base "withings API error"

/-- Modelled from the spec: the "authentication required" sentinel used by
refreshAccessToken (src/cmd/auth_tokens.go line 68); its defining
declaration is not under src/. Only its identity matters here. -/
def errAuthRequired : GoError := .base "authentication required"

/-- classifyRefreshError (src/cmd/auth_tokens.go lines 139-150 and
src/unnamed/part_019 lines 143-154): network-wrapped errors map to the
network exit code, every other error maps to the auth exit code. The Go
nil-input branch is not modelled: the function is only called on a present
error. -/
def classifyRefreshError (err : GoError) : exitError :=
  if isNetworkErr err then newExitError exitCodeNetwork err
  else newExitError exitCodeAuth err

/-- classifyTokenError (src/cmd/auth_handlers.go lines 601-619):
network-wrapped errors map to the network exit code, api-wrapped errors to
the API exit code, and everything else to the generic failure exit code.
The Go nil-input branch is not modelled. -/
def classifyTokenError (err : GoError) : exitError :=
  if isNetworkErr err then newExitError exitCodeNetwork err
  else if isAPIErr err then newExitError exitCodeAPI err
  else newExitError exitCodeFailure err

/-! ## Token request (doTokenRequest, src/unnamed/part_018 lines 266-310)

The outbound HTTP transport, the payload read/close results and the JSON
decode of the payload are abstracted as parameters; the wrapping of each
failure in the network or api marker type, the HTTP status gate and the
provider status gate are embedded from the source. -/

/-- tokenBody (src/unnamed/part_018): the token fields of a provider
response body. -/
structure tokenBody where
  AccessToken : String
  RefreshToken : String
  ExpiresIn : Int
  TokenType : String
  Scope : String
  UserID : String
deriving DecidableEq

/-- tokenResponse (src/unnamed/part_018): the decoded provider envelope. -/
structure tokenResponse where
  Status : Int
  Body : tokenBody
  Error : String
  Detail : String
deriving DecidableEq

/-- Modelled from the spec: the provider success sentinel withings.StatusOK;
its defining declaration is not under src/. The Withings API reports
status 0 on success. -/
def withingsStatusOK : Int := 0

/-- ensureTokenHTTPStatus (src/unnamed/part_018 lines 341-352): a non-2xx
HTTP status yields a wrap of errTokenRequestFailed. -/
def ensureTokenHTTPStatus (statusCode : Int) (payload : String) :
    Option GoError :=
  if statusCode < 200 || 300 ≤ statusCode then
    some (.wrap ("HTTP " ++ toString statusCode ++ ": " ++ payload.trim)
      errTokenRequestFailed)
  else
    none

/-- decodeTokenResponse (src/unnamed/part_018 lines 354-381): the JSON
unmarshal is abstracted as the `decoded` parameter; a decode failure is
wrapped, a provider status other than withingsStatusOK yields a wrap of
errWithingsAPI with the message taken from the error field, else the
detail field, else the trimmed raw payload. -/
def decodeTokenResponse (decoded : Except GoError tokenResponse)
    (payload : String) : Except GoError tokenBody :=
  match decoded with
  | .error e => .error (.wrap "decode token response" e)
  | .ok d =>
    if d.Status ≠ withingsStatusOK then
      let message :=
        if d.Error ≠ "" then d.Error
        else if d.Detail ≠ "" then d.Detail
        else payload.trim
      .error (.wrap (toString d.Status ++ ": " ++ message) errWithingsAPI)
    else
      .ok d.Body

/-- errors.Join of a present error with an optional second error. -/
def joinWith (err : GoError) : Option GoError → GoError
  | none => err
  | some second => .joined err second

/-- doTokenRequest (src/unnamed/part_018 lines 266-310). `transport` is the
outcome of http.DefaultClient.Do, `readErr`/`closeErr` the payload
read/close failures, `decoded` the JSON unmarshal outcome of the payload.
A transport failure is wrapped in the network marker; every later failure
is wrapped in the api marker. -/
def doTokenRequest (transport : Except GoError (Int × String))
    (readErr closeErr : Option GoError)
    (decoded : Except GoError tokenResponse) : Except GoError tokenBody :=
  match transport with
  | .error e => .error (.network e)
  | .ok (status, payload) =>
    let closeWrapped := closeErr.map (.wrap "close token response")
    match readErr with
    | some re =>
      .error (.api (joinWith (.wrap "read token response" re) closeWrapped))
    | none =>
      match closeWrapped with
      | some ce => .error (.api ce)
      | none =>
        match ensureTokenHTTPStatus status payload with
        | some e => .error (.api e)
        | none =>
          match decodeTokenResponse decoded payload with
          | .error e => .error (.api e)
          | .ok body => .ok body

/-! ## Time and the token state (src/cmd/auth_tokens.go) -/

/-- A Go time.Time instant in seconds; `none` models the zero value
(time.Time{}.IsZero()). -/
abbrev GoTime := Option Int

/-- tokenRefreshSkew (src/cmd/auth_tokens.go line 10): 30 seconds. -/
def tokenRefreshSkew : Int := 30

/-- tokenState (src/cmd/auth_tokens.go lines 12-18). -/
structure tokenState where
  AccessToken : String
  AccessSource : String
  RefreshToken : String
  RefreshSource : String
  ExpiresAt : GoTime
deriving DecidableEq

/-- shouldRefresh (src/cmd/auth_tokens.go lines 127-133): a zero expiry
never refreshes; otherwise time.Now().After(expiresAt.Add(-skew)), a
strict comparison, with time.Now() made explicit as `now`. -/
def shouldRefresh (now : Int) (expiresAt : GoTime) : Bool :=
  match expiresAt with
  | none => false
  | some t => decide (t - tokenRefreshSkew < now)

/-- usableAccessToken (src/cmd/auth_tokens.go lines 49-59), with the
implicit time.Now() of shouldRefresh made explicit as `now`. -/
def usableAccessToken (now : Int) (state : tokenState) : String :=
  if state.AccessToken = "" then ""
  else if shouldRefresh now state.ExpiresAt then ""
  else state.AccessToken

/-- parseTime (src/cmd/auth_handlers.go lines 621-632): empty input or a
failed RFC3339 parse yields the zero time. The Go stdlib time.Parse with
the RFC3339 layout is abstracted as the `rfc3339` parameter, returning
none exactly when the input is not a well-formed RFC3339 timestamp. -/
def parseTime (rfc3339 : String → Option Int) (value : String) : GoTime :=
  if value = "" then none
  else
    match rfc3339 value with
    | none => none
    | some t => some t

/-! ## Multi-tier value resolution (src/cmd/auth_handlers.go) -/

/-- resolveValue (src/cmd/auth_handlers.go lines 549-563): flag over env
over project over user, first non-empty wins. -/
def resolveValue (flagValue envValue projectValue userValue : String) :
    String :=
  if flagValue ≠ "" then flagValue
  else if envValue ≠ "" then envValue
  else if projectValue ≠ "" then projectValue
  else userValue

/-- resolvedValue (src/cmd/auth_handlers.go lines 565-568). -/
structure resolvedValue where
  Value : String
  Source : String
deriving DecidableEq

/-- resolveValueSource (src/cmd/auth_handlers.go lines 570-588): env over
project over user with the winning tier recorded; all empty yields the
empty value with source "none". -/
def resolveValueSource (envValue projectValue userValue : String) :
    resolvedValue :=
  if envValue ≠ "" then { Value := envValue, Source := "env" }
  else if projectValue ≠ "" then { Value := projectValue, Source := "project" }
  else if userValue ≠ "" then { Value := userValue, Source := "user" }
  else { Value := "", Source := "none" }

/-! Environment variable names (src/cmd/auth.go lines 440-444). The process
environment is modelled as a total function from variable name to value,
with the empty string for unset variables, matching os.Getenv. -/

def envAccessToken : String := "WITHINGS_ACCESS_TOKEN"
def envClientID : String := "WITHINGS_CLIENT_ID"
def envClientSecret : String := "WITHINGS_CLIENT_SECRET"
def envRedirectURI : String := "WITHINGS_REDIRECT_URI"
def envRefreshToken : String := "WITHINGS_REFRESH_TOKEN"

/-! ## ConfigStore (src/cmd/auth_config.go)

The store keeps raw text lines plus two Go maps, modelled as functions to
Option (a Go map lookup distinguishes absence from a zero value, and
delete removes an entry). File content is a String; strings.Split on the
single-character separator "\n" and strings.Join are embedded over the
character list of the string. -/

/-- Config key constants (src/cmd/auth_config.go lines 12-23). -/
def configKeyAccessToken : String := "access_token"
def configKeyRefreshToken : String := "refresh_token"
def configKeyScope : String := "scope"
def configKeyTokenType : String := "token_type"
def configKeyUserID : String := "user_id"
def configKeyTokenExpiresAt : String := "token_expires_at"
def configKeyTokenObtained : String := "token_obtained_at"

/-- strings.Split(s, "\n") on the character list: the (always non-empty)
list of segments between newline characters. -/
def splitNl : List Char → List (List Char)
  | [] => [[]]
  | c :: rest =>
    if c = '\n' then [] :: splitNl rest
    else
      match splitNl rest with
      | [] => [[c]]
      | h :: t => (c :: h) :: t

/-- strings.Join(lines, "\n") on character lists. -/
def joinNl : List (List Char) → List Char
  | [] => []
  | [l] => l
  | l :: l' :: rest => l ++ '\n' :: joinNl (l' :: rest)

/-- strings.Split(content, "\n") as used by loadConfigFile
(src/cmd/auth_config.go line 133). -/
def goSplitLines (s : String) : List String :=
  (splitNl s.data).map fun l => ⟨l⟩

/-- strings.Join(lines, "\n") as used by Save
(src/cmd/auth_config.go line 184). -/
def goJoinLines (lines : List String) : String :=
  ⟨joinNl (lines.map String.data)⟩

/-- strings.HasSuffix(s, "\n"): the last character is a newline. -/
def hasNlSuffix (s : String) : Bool :=
  match s.data.getLast? with
  | some c => c == '\n'
  | none => false

/-- strings.TrimSpace on a character list: drop whitespace from both
ends. -/
def goTrimSpaceChars (l : List Char) : List Char :=
  ((l.dropWhile Char.isWhitespace).reverse.dropWhile
    Char.isWhitespace).reverse

/-- strings.TrimSpace. -/
def goTrim (s : String) : String := ⟨goTrimSpaceChars s.data⟩

/-- isCommentLine (src/cmd/auth_config.go lines 237-239): a line starting
with "#" or "//". -/
def isCommentLine (line : String) : Bool :=
  match line.data with
  | '#' :: _ => true
  | '/' :: '/' :: _ => true
  | _ => false

/-- isSectionLine (src/cmd/auth_config.go lines 241-243): a line starting
with "[". -/
def isSectionLine (line : String) : Bool :=
  match line.data with
  | '[' :: _ => true
  | _ => false

/-- The quote-aware scan of commentStartIndex / stripInlineComment
(src/cmd/auth_config.go lines 276-348): returns the prefix before the
first comment start found outside quotes. A double quote toggles the
double-quote flag unless inside single quotes; a single quote toggles the
single-quote flag unless inside double quotes; outside quotes, "#" or "//"
starts a comment. -/
def commentScan (inSingle inDouble : Bool) : List Char → List Char
  | [] => []
  | c :: rest =>
    if c = '"' then
      c :: commentScan inSingle (if inSingle then inDouble else !inDouble) rest
    else if c = '\'' then
      c :: commentScan (if inDouble then inSingle else !inSingle) inDouble rest
    else if inSingle || inDouble then
      c :: commentScan inSingle inDouble rest
    else if c = '#' then
      []
    else if c = '/' then
      match rest with
      | '/' :: _ => []
      | _ => c :: commentScan inSingle inDouble rest
    else
      c :: commentScan inSingle inDouble rest

/-- stripInlineComment (src/cmd/auth_config.go lines 276-283). -/
def stripInlineComment (line : String) : String :=
  ⟨commentScan false false line.data⟩

/-- configKeyValue (src/cmd/auth_config.go lines 53-56). -/
structure configKeyValue where
  Key : String
  Value : String
deriving DecidableEq

/-- Split a character list at the first '=':
strings.SplitN(line, "=", 2). -/
def splitFirstEq (l : List Char) : Option (List Char × List Char) :=
  match l.span (fun c => c != '=') with
  | (_, []) => none
  | (pre, _ :: post) => some (pre, post)

/-- splitConfigKeyValue (src/cmd/auth_config.go lines 245-259): split at
the first '=', trim both sides, reject a missing '=' or an empty key. -/
def splitConfigKeyValue (line : String) : Option configKeyValue :=
  match splitFirstEq line.data with
  | none => none
  | some (pre, post) =>
    let key := goTrim ⟨pre⟩
    if key = "" then none
    else some { Key := key, Value := goTrim ⟨post⟩ }

/-- One escape of the quoted form: the sequences emitted by strconv.Quote
for the characters this program writes. -/
def goUnescapeChar (c : Char) : Option Char :=
  if c = '"' then some '"'
  else if c = '\\' then some '\\'
  else if c = 'n' then some '\n'
  else if c = 't' then some '\t'
  else if c = 'r' then some '\r'
  else none

/-- Body scan of goUnquote: consume up to a final unescaped '"' with
nothing after it; reject an early unescaped '"', a trailing backslash or
an unknown escape. -/
def unquoteBody : List Char → Option (List Char)
  | [] => none
  | ['"'] => some []
  | '"' :: _ :: _ => none
  | ['\\'] => none
  | '\\' :: e :: rest =>
    match goUnescapeChar e with
    | none => none
    | some c => (unquoteBody rest).map (c :: ·)
  | c :: rest => (unquoteBody rest).map (c :: ·)

/-- Modelled from the Go standard library strconv.Unquote, restricted to
double-quoted strings with the escape sequences this program's writer
(strconv.Quote) emits; Go additionally accepts backquoted and
single-quoted literals, which this config format never produces. -/
def goUnquote (s : String) : Option String :=
  match s.data with
  | '"' :: rest => (unquoteBody rest).map fun l => ⟨l⟩
  | _ => none

/-- strings.Trim(value, "\x22'"): drop leading and trailing quote
characters. -/
def goTrimQuotes (s : String) : String :=
  let cut := fun c => c == '"' || c == '\''
  ⟨((s.data.dropWhile cut).reverse.dropWhile cut).reverse⟩

/-- parseConfigValue (src/cmd/auth_config.go lines 261-272): empty stays
empty; a successful unquote wins; otherwise surrounding quote characters
are trimmed. -/
def parseConfigValue (value : String) : String :=
  if value = "" then ""
  else
    match goUnquote value with
    | some unquoted => unquoted
    | none => goTrimQuotes value

/-- parseConfigLine (src/cmd/auth_config.go lines 215-235): trim; skip
blank, comment and section lines; strip the inline comment; split on the
first '='; parse the value. -/
def parseConfigLine (line : String) : Option configKeyValue :=
  let trimmed := goTrim line
  if trimmed = "" then none
  else if isCommentLine trimmed || isSectionLine trimmed then none
  else
    match splitConfigKeyValue (stripInlineComment trimmed) with
    | none => none
    | some pair => some { Key := pair.Key, Value := parseConfigValue pair.Value }

/-- Modelled from the Go standard library strconv.Quote restricted to the
escapes goUnescapeChar understands; printable characters pass through. -/
def goEscapeChar (c : Char) : List Char :=
  if c = '"' then ['\\', '"']
  else if c = '\\' then ['\\', '\\']
  else if c = '\n' then ['\\', 'n']
  else if c = '\t' then ['\\', 't']
  else if c = '\r' then ['\\', 'r']
  else [c]

/-- tomlQuote (src/cmd/auth_config.go lines 350-352): strconv.Quote. -/
def tomlQuote (value : String) : String :=
  ⟨'"' :: value.data.flatMap goEscapeChar ++ ['"']⟩

/-- The line Set writes for a key/value pair
(src/cmd/auth_config.go line 146): fmt.Sprintf("%s = %s", key,
tomlQuote(value)). -/
def encodeLine (key value : String) : String :=
  key ++ " = " ++ tomlQuote value

/-- configFile (src/cmd/auth_config.go lines 40-46). `Values` and
`KeyIndex` model the two Go maps as functions to Option. -/
structure configFile where
  Path : String
  Lines : List String
  Values : String → Option String
  KeyIndex : String → Option Nat
  Exists : Bool

/-- Value (src/cmd/auth_config.go lines 139-142): a map lookup with the
zero string for a missing key. -/
def configFile.Value (c : configFile) (key : String) : String :=
  (c.Values key).getD ""

/-- Set (src/cmd/auth_config.go lines 144-157): rewrite the recorded line
in place when the key exists, else append a new line and record its
index. -/
def configFile.Set (c : configFile) (key value : String) : configFile :=
  let line := encodeLine key value
  match c.KeyIndex key with
  | some idx =>
    { c with
      Lines := c.Lines.set idx line
      Values := Function.update c.Values key (some value) }
  | none =>
    { c with
      Lines := c.Lines ++ [line]
      Values := Function.update c.Values key (some value)
      KeyIndex := Function.update c.KeyIndex key (some c.Lines.length) }

/-- Unset (src/cmd/auth_config.go lines 159-175): a missing key is a
no-op; otherwise splice out the recorded line, delete both map entries and
decrement every recorded index greater than the removed one. -/
def configFile.Unset (c : configFile) (key : String) : configFile :=
  match c.KeyIndex key with
  | none => c
  | some idx =>
    { c with
      Lines := c.Lines.take idx ++ c.Lines.drop (idx + 1)
      Values := Function.update c.Values key none
      KeyIndex := fun k =>
        match Function.update c.KeyIndex key none k with
        | none => none
        | some i => if idx < i then some (i - 1) else some i }

/-- The file content Save writes (src/cmd/auth_config.go lines 177-198):
join the lines with "\n" and append a trailing newline when there is at
least one line and the joined data does not already end in one. -/
def configFile.renderSave (c : configFile) : String :=
  let data := goJoinLines c.Lines
  if 0 < c.Lines.length && !hasNlSuffix data then data ++ "\n" else data

/-- Save (src/cmd/auth_config.go lines 177-198): the directory creation
and file write are modelled by returning the written content; the store
is marked existing. Write failures are outside the model. -/
def configFile.Save (c : configFile) : configFile × String :=
  ({ c with Exists := true }, c.renderSave)

/-- One step of parseLines (src/cmd/auth_config.go lines 200-213),
processing the lines from index `start` onward into the two maps; a later
occurrence of a key overwrites an earlier one. -/
def parseLinesFrom (start : Nat) (lines : List String)
    (values : String → Option String) (keyIndex : String → Option Nat) :
    (String → Option String) × (String → Option Nat) :=
  match lines with
  | [] => (values, keyIndex)
  | line :: rest =>
    match parseConfigLine line with
    | none => parseLinesFrom (start + 1) rest values keyIndex
    | some pair =>
      parseLinesFrom (start + 1) rest
        (Function.update values pair.Key (some pair.Value))
        (Function.update keyIndex pair.Key (some start))

/-- parseLines (src/cmd/auth_config.go lines 200-213): rebuild both maps
from the lines. -/
def configFile.parseLines (c : configFile) : configFile :=
  let maps := parseLinesFrom 0 c.Lines (fun _ => none) (fun _ => none)
  { c with Values := maps.1, KeyIndex := maps.2 }

/-- The successful-read branch of loadConfigFile
(src/cmd/auth_config.go lines 113-137): split the content on newlines,
mark the store existing and parse the lines. The missing-file and
read-error branches are I/O and outside this model. -/
def loadConfigContent (path content : String) : configFile :=
  configFile.parseLines
    { Path := path
      Lines := goSplitLines content
      Values := fun _ => none
      KeyIndex := fun _ => none
      Exists := true }

/-- persistTokens (src/cmd/auth_handlers.go lines 305-322): one batch of
Set calls (the refresh token only when non-empty) followed by one Save.
time.Now().UTC() is `nowUTC`; the RFC3339 formatter of the Go stdlib is
abstracted as `fmtRFC3339`. Returns the updated store and the written
content. -/
def persistTokens (config : configFile) (token : tokenBody) (nowUTC : Int)
    (fmtRFC3339 : Int → String) : configFile × String :=
  let expiresAt := nowUTC + token.ExpiresIn
  let c1 := config.Set configKeyAccessToken token.AccessToken
  let c2 :=
    if token.RefreshToken ≠ "" then
      c1.Set configKeyRefreshToken token.RefreshToken
    else c1
  let c3 := c2.Set configKeyTokenType token.TokenType
  let c4 := c3.Set configKeyScope token.Scope
  let c5 := c4.Set configKeyUserID token.UserID
  let c6 := c5.Set configKeyTokenExpiresAt (fmtRFC3339 expiresAt)
  let c7 := c6.Set configKeyTokenObtained (fmtRFC3339 nowUTC)
  c7.Save

/-! ## Token lifecycle (src/cmd/auth_tokens.go, src/unnamed/part_019)

The process environment is a function `env : String → String` (os.Getenv
returns "" for an unset variable); the outbound refresh-grant HTTP call is
abstracted as its outcome `refreshOutcome`, and the run records how many
HTTP calls and Save calls were made. -/

/-- authClientConfig (src/cmd/auth_handlers.go lines 34-38). -/
structure authClientConfig where
  ClientID : String
  ClientSecret : String
  RedirectURI : String
deriving DecidableEq

/-- resolveAuthConfig (src/cmd/auth_handlers.go lines 436-447): client id
and secret come exclusively from the environment; the redirect URI is
flag over env (the project/user tiers passed as empty). -/
def resolveAuthConfig (env : String → String) (redirectOverride : String) :
    authClientConfig :=
  { ClientID := env envClientID
    ClientSecret := env envClientSecret
    RedirectURI := resolveValue redirectOverride (env envRedirectURI) "" "" }

/-- buildTokenState (src/cmd/auth_tokens.go lines 103-125): access and
refresh tokens each resolved env over project over user; the expiry read
only from the user config's token_expires_at key. -/
def buildTokenState (env : String → String) (rfc3339 : String → Option Int)
    (projectConfig userConfig : configFile) : tokenState :=
  let accessToken := resolveValueSource (env envAccessToken)
    (projectConfig.Value configKeyAccessToken)
    (userConfig.Value configKeyAccessToken)
  let refreshTok := resolveValueSource (env envRefreshToken)
    (projectConfig.Value configKeyRefreshToken)
    (userConfig.Value configKeyRefreshToken)
  let expiresAt := parseTime rfc3339 (userConfig.Value configKeyTokenExpiresAt)
  { AccessToken := accessToken.Value
    AccessSource := accessToken.Source
    RefreshToken := refreshTok.Value
    RefreshSource := refreshTok.Source
    ExpiresAt := expiresAt }

/-- shouldPersistRefreshedTokens (src/cmd/auth_tokens.go lines 135-137):
persist only when the refresh token's winning tier was "user". -/
def shouldPersistRefreshedTokens (source : String) : Bool :=
  source == "user"

/-- The observable outcome of one EnsureAccessToken /
refreshAccessToken run: the result, the final user-scoped store, the
contents written by Save calls (one entry per Save) and the number of
outbound HTTP token calls. -/
structure refreshRun where
  result : Except exitError String
  userConfig : configFile
  savedContents : List String
  httpCalls : Nat

/-- refreshAccessToken (src/cmd/auth_tokens.go lines 61-101): fail
auth-class before any HTTP call when the refresh token is empty or when
the environment-resolved client credentials are incomplete; otherwise
perform exactly one refresh call, classify its failure, and on success
persist to the user store only when the refresh token's tier was "user".
The Save-failure branch of persistTokens is I/O and outside the model. -/
def refreshAccessToken (env : String → String) (userConfig : configFile)
    (state : tokenState) (refreshOutcome : Except GoError tokenBody)
    (now : Int) (fmtRFC3339 : Int → String) : refreshRun :=
  if state.RefreshToken = "" then
    { result := .error (newExitError exitCodeAuth errAuthRequired)
      userConfig := userConfig, savedContents := [], httpCalls := 0 }
  else
    let authConfig := resolveAuthConfig env ""
    if authConfig.ClientID = "" || authConfig.ClientSecret = "" then
      { result := .error (newExitError exitCodeAuth errClientCredentialsMissing)
        userConfig := userConfig, savedContents := [], httpCalls := 0 }
    else
      match refreshOutcome with
      | .error e =>
        { result := .error (classifyRefreshError e)
          userConfig := userConfig, savedContents := [], httpCalls := 1 }
      | .ok token =>
        if shouldPersistRefreshedTokens state.RefreshSource then
          let persisted := persistTokens userConfig token now fmtRFC3339
          { result := .ok token.AccessToken
            userConfig := persisted.1
            savedContents := [persisted.2], httpCalls := 1 }
        else
          { result := .ok token.AccessToken
            userConfig := userConfig, savedContents := [], httpCalls := 1 }

/-- ensureAccessToken (src/cmd/auth_tokens.go lines 20-34), after the
config sources have been loaded (loadTokenState's I/O is collapsed into
the two configFile arguments): return a usable token directly, else run
the refresh grant. -/
def ensureAccessToken (env : String → String) (rfc3339 : String → Option Int)
    (fmtRFC3339 : Int → String) (projectConfig userConfig : configFile)
    (now : Int) (refreshOutcome : Except GoError tokenBody) : refreshRun :=
  let state := buildTokenState env rfc3339 projectConfig userConfig
  let token := usableAccessToken now state
  if token ≠ "" then
    { result := .ok token
      userConfig := userConfig, savedContents := [], httpCalls := 0 }
  else
    refreshAccessToken env userConfig state refreshOutcome now fmtRFC3339

/-! ## Callback wait (src/cmd/auth_handlers.go lines 188-303)

The select of awaitAuthCode races exactly three outcomes: a delivered
authorization code, a delivered error, and the expiry of the 2-minute
timeout context. The delivered outcome is a pure value here; the listener
lifecycle is tracked by counting shutdown calls on each control path of
waitForAuthCode. -/

/-- The three outcomes awaitAuthCode's select can consume
(src/cmd/auth_handlers.go lines 278-291): a code from the success channel,
an error from the error channel, or the timeout context firing. -/
inductive waitOutcome where
  | code (c : String)
  | failure (e : GoError)
  | timedOut
deriving DecidableEq

/-- authCallbackTimeout (src/cmd/auth_handlers.go line 19): 2 minutes, in
seconds. -/
def authCallbackTimeoutSec : Int := 120

/-- authShutdownTimeout (src/cmd/auth_handlers.go line 22): 5 seconds. -/
def authShutdownTimeoutSec : Int := 5

/-- awaitAuthCode (src/cmd/auth_handlers.go lines 278-291): consume
exactly one of the three raced outcomes. -/
def awaitAuthCode : waitOutcome → Except GoError String
  | .code c => .ok c
  | .failure e => .error e
  | .timedOut => .error errAuthTimedOut

/-- shutdownAuthServer (src/cmd/auth_handlers.go lines 293-303): the
shutdown runs under its own authShutdownTimeout-bounded context; a
failure is wrapped. `shutdownErr` is the outcome of server.Shutdown. -/
def shutdownAuthServer (shutdownErr : Option GoError) : Option GoError :=
  shutdownErr.map (.wrap "shutdown auth server")

/-- The observable outcome of one waitForAuthCode run: the result and how
many times the listener was shut down. -/
structure waitRun where
  result : Except GoError String
  shutdownCalls : Nat

/-- waitForAuthCode after the listener has started
(src/cmd/auth_handlers.go lines 206-230): if opening the browser / writing
the URL fails, shut down once and join; otherwise wait, then shut down
once, joining a wait error with any shutdown error, surfacing a lone
shutdown error, or returning the code. `openErr` is the outcome of
handleAuthOpen, `outcome` the consumed select outcome, `shutdownErr` the
outcome of server.Shutdown. -/
def waitForAuthCode (openErr : Option GoError) (outcome : waitOutcome)
    (shutdownErr : Option GoError) : waitRun :=
  match openErr with
  | some e =>
    { result := .error (joinWith e (shutdownAuthServer shutdownErr))
      shutdownCalls := 1 }
  | none =>
    let sd := shutdownAuthServer shutdownErr
    match awaitAuthCode outcome with
    | .error e => { result := .error (joinWith e sd), shutdownCalls := 1 }
    | .ok c =>
      match sd with
      | some se => { result := .error se, shutdownCalls := 1 }
      | none => { result := .ok c, shutdownCalls := 1 }

/-! ## Store invariant and reachability -/

/-- A stored line encodes a key: it parses to that key (lines installed by
Load), or it is the literal line Set writes for that key (lines installed
by Set, whose keys need not survive a re-parse when they contain comment
or section syntax). -/
def lineEncodesKey (line key : String) : Prop :=
  (∃ v, parseConfigLine line = some { Key := key, Value := v }) ∨
    ∃ v, line = encodeLine key v

/-- The store invariant: Values and KeyIndex hold the same key set, every
recorded index addresses a line, distinct keys hold distinct indices, and
the addressed line encodes its key. -/
def configInv (c : configFile) : Prop :=
  (∀ k, (c.Values k).isSome ↔ (c.KeyIndex k).isSome) ∧
  (∀ k i, c.KeyIndex k = some i → i < c.Lines.length) ∧
  (∀ k₁ k₂ i, c.KeyIndex k₁ = some i → c.KeyIndex k₂ = some i → k₁ = k₂) ∧
  (∀ k i, c.KeyIndex k = some i →
    ∃ line, c.Lines[i]? = some line ∧ lineEncodesKey line k)

/-- The stores reachable from a start store by Set and Unset calls. -/
inductive configReachable : configFile → configFile → Prop
  | refl (c : configFile) : configReachable c c
  | set {c₀ c : configFile} (k v : String) :
      configReachable c₀ c → configReachable c₀ (c.Set k v)
  | unset {c₀ c : configFile} (k : String) :
      configReachable c₀ c → configReachable c₀ (c.Unset k)

/-! ## Concrete fixtures used by witnesses and counterexamples -/

/-- An environment holding client credentials and a refresh token. -/
def envFixture : String → String := fun k =>
  if k = envClientID then "cid"
  else if k = envClientSecret then "csec"
  else if k = envRefreshToken then "rtok"
  else ""

/-- An empty user/project store. -/
def emptyConfigFixture : configFile := loadConfigContent "cfg" ""

/-- A refresh-grant response body. -/
def tokenFixture : tokenBody :=
  { AccessToken := "newacc", RefreshToken := "newref", ExpiresIn := 3600
    TokenType := "Bearer", Scope := "user.metrics", UserID := "42" }

/-- A token state expiring at instant 100 with a user-tier refresh token. -/
def stateFixture : tokenState :=
  { AccessToken := "tok", AccessSource := "user", RefreshToken := "rtok"
    RefreshSource := "user", ExpiresAt := some 100 }

/-- A token state with an unknown (zero) expiry. -/
def stateNoExpiryFixture : tokenState :=
  { AccessToken := "tok", AccessSource := "env", RefreshToken := ""
    RefreshSource := "none", ExpiresAt := none }

/-- A token state whose refresh token was won by the project tier. -/
def stateProjectFixture : tokenState :=
  { AccessToken := "", AccessSource := "none", RefreshToken := "rtok"
    RefreshSource := "project", ExpiresAt := none }

/-!
# Theorems
-/

/-- C2 counterexample: the claim asserts that at the exact boundary
instant now = ExpiresAt − 30s the access token is judged stale and the
empty string is returned, but shouldRefresh uses time.Now().After, a
strict comparison, so at now = 70 with ExpiresAt = 100 and the 30-second
skew the token is still returned unchanged. -/
theorem c2_boundary_counterexample :
    (70 : Int) = 100 - tokenRefreshSkew ∧
    usableAccessToken 70 stateFixture = "tok" := by
  constructor
  · decide
  · rfl

/-- C2 (amended): for a non-empty access token, usableAccessToken returns
the token unchanged when ExpiresAt is the zero value or when
now ≤ ExpiresAt − 30s — including the exact boundary instant — and
returns the empty string exactly when ExpiresAt is non-zero and
now > ExpiresAt − 30s. -/
theorem c2_usable_token_amended (state : tokenState) (now t : Int)
    (htok : state.AccessToken ≠ "") :
    (state.ExpiresAt = none →
      usableAccessToken now state = state.AccessToken) ∧
    (state.ExpiresAt = some t → now ≤ t - tokenRefreshSkew →
      usableAccessToken now state = state.AccessToken) ∧
    (state.ExpiresAt = some t → t - tokenRefreshSkew < now →
      usableAccessToken now state = "") := by
  refine ⟨fun h => ?_, fun h hle => ?_, fun h hlt => ?_⟩
  · simp [usableAccessToken, shouldRefresh, htok, h]
  · simp [usableAccessToken, shouldRefresh, htok, h, not_lt.mpr hle]
  · simp [usableAccessToken, shouldRefresh, htok, h, hlt]

/-- C2 witness: the amended theorem at concrete instants around the
boundary of the fixture state. -/
theorem c2_usable_token_witness :
    usableAccessToken 70 stateFixture = "tok" ∧
    usableAccessToken 71 stateFixture = "" := by
  constructor
  · exact (c2_usable_token_amended stateFixture 70 100 (by decide)).2.1
      rfl (by decide)
  · exact (c2_usable_token_amended stateFixture 71 100 (by decide)).2.2
      rfl (by decide)

/-- C5: buildTokenState resolves the access and refresh tokens
independently, each through resolveValueSource on its own three tiers,
and resolveValueSource implements strict env > project > user precedence
where an empty value defers to the next tier, reporting the winning tier,
with source "none" and the empty value when all tiers are empty. -/
theorem c5_precedence (env : String → String) (rfc3339 : String → Option Int)
    (projectConfig userConfig : configFile)
    (envValue projectValue userValue : String) :
    ((buildTokenState env rfc3339 projectConfig userConfig).AccessToken =
        (resolveValueSource (env envAccessToken)
          (projectConfig.Value configKeyAccessToken)
          (userConfig.Value configKeyAccessToken)).Value ∧
      (buildTokenState env rfc3339 projectConfig userConfig).AccessSource =
        (resolveValueSource (env envAccessToken)
          (projectConfig.Value configKeyAccessToken)
          (userConfig.Value configKeyAccessToken)).Source) ∧
    ((buildTokenState env rfc3339 projectConfig userConfig).RefreshToken =
        (resolveValueSource (env envRefreshToken)
          (projectConfig.Value configKeyRefreshToken)
          (userConfig.Value configKeyRefreshToken)).Value ∧
      (buildTokenState env rfc3339 projectConfig userConfig).RefreshSource =
        (resolveValueSource (env envRefreshToken)
          (projectConfig.Value configKeyRefreshToken)
          (userConfig.Value configKeyRefreshToken)).Source) ∧
    (envValue ≠ "" →
      resolveValueSource envValue projectValue userValue =
        { Value := envValue, Source := "env" }) ∧
    (envValue = "" → projectValue ≠ "" →
      resolveValueSource envValue projectValue userValue =
        { Value := projectValue, Source := "project" }) ∧
    (envValue = "" → projectValue = "" → userValue ≠ "" →
      resolveValueSource envValue projectValue userValue =
        { Value := userValue, Source := "user" }) ∧
    (envValue = "" → projectValue = "" → userValue = "" →
      resolveValueSource envValue projectValue userValue =
        { Value := "", Source := "none" }) := by
  refine ⟨⟨rfl, rfl⟩, ⟨rfl, rfl⟩, fun h => ?_, fun h hp => ?_,
    fun h hp hu => ?_, fun h hp hu => ?_⟩ <;>
    simp [resolveValueSource, *]

/-- C5 witness: the precedence cases of the theorem at concrete tier
values. -/
theorem c5_precedence_witness :
    resolveValueSource "e" "p" "u" = { Value := "e", Source := "env" } ∧
    resolveValueSource "" "p" "u" =
      { Value := "p", Source := "project" } ∧
    resolveValueSource "" "" "u" = { Value := "u", Source := "user" } ∧
    resolveValueSource "" "" "" = { Value := "", Source := "none" } := by
  refine ⟨?_, ?_, ?_, ?_⟩
  · exact (c5_precedence envFixture (fun _ => none) emptyConfigFixture
      emptyConfigFixture "e" "p" "u").2.2.1 (by decide)
  · exact (c5_precedence envFixture (fun _ => none) emptyConfigFixture
      emptyConfigFixture "" "p" "u").2.2.2.1 rfl (by decide)
  · exact (c5_precedence envFixture (fun _ => none) emptyConfigFixture
      emptyConfigFixture "" "" "u").2.2.2.2.1 rfl rfl (by decide)
  · exact (c5_precedence envFixture (fun _ => none) emptyConfigFixture
      emptyConfigFixture "" "" "").2.2.2.2.2 rfl rfl rfl

/-- C9: buildTokenState reads the expiry exclusively from the user
config's token_expires_at key — any environment and project config give
the same ExpiresAt — an absent or unparseable value yields the zero time,
and a zero expiry makes a non-empty access token usable at every
instant. -/
theorem c9_expiry_user_only (env env₂ : String → String)
    (rfc3339 : String → Option Int)
    (projectConfig projectConfig₂ userConfig : configFile)
    (value : String) (state : tokenState) (now : Int) :
    (buildTokenState env rfc3339 projectConfig userConfig).ExpiresAt =
      parseTime rfc3339 (userConfig.Value configKeyTokenExpiresAt) ∧
    (buildTokenState env₂ rfc3339 projectConfig₂ userConfig).ExpiresAt =
      (buildTokenState env rfc3339 projectConfig userConfig).ExpiresAt ∧
    (value = "" → parseTime rfc3339 value = none) ∧
    (rfc3339 value = none → parseTime rfc3339 value = none) ∧
    (state.AccessToken ≠ "" → state.ExpiresAt = none →
      usableAccessToken now state = state.AccessToken) := by
  refine ⟨rfl, rfl, fun h => ?_, fun h => ?_, fun htok hz => ?_⟩
  · simp [parseTime, h]
  · simp only [parseTime, h]
    split <;> rfl
  · simp [usableAccessToken, shouldRefresh, htok, hz]

/-- C9 witness: the theorem at an empty expiry value, a rejected parse
and the zero-expiry fixture state. -/
theorem c9_expiry_user_only_witness :
    parseTime (fun _ => none) "" = none ∧
    parseTime (fun _ => none) "not-a-time" = none ∧
    usableAccessToken 1000000 stateNoExpiryFixture = "tok" := by
  refine ⟨?_, ?_, ?_⟩
  · exact (c9_expiry_user_only envFixture envFixture (fun _ => none)
      emptyConfigFixture emptyConfigFixture emptyConfigFixture ""
      stateNoExpiryFixture 0).2.2.1 rfl
  · exact (c9_expiry_user_only envFixture envFixture (fun _ => none)
      emptyConfigFixture emptyConfigFixture emptyConfigFixture "not-a-time"
      stateNoExpiryFixture 0).2.2.2.1 rfl
  · exact (c9_expiry_user_only envFixture envFixture (fun _ => none)
      emptyConfigFixture emptyConfigFixture emptyConfigFixture ""
      stateNoExpiryFixture 1000000).2.2.2.2 (by decide) rfl

/-- C1 counterexample: the claim asserts that a refresh failure wrapped in
the API-origin marker type yields the API exit class, but with a usable
refresh token and full credentials a refresh whose outcome is an
api-wrapped error is classified with the auth exit code, which differs
from the API exit code. -/
theorem c1_refresh_api_counterexample :
    (refreshAccessToken envFixture emptyConfigFixture stateFixture
        (.error (.api (.base "boom"))) 0 (fun _ => "")).result =
      .error (newExitError exitCodeAuth (.api (.base "boom"))) ∧
    exitCodeAuth ≠ exitCodeAPI := by
  refine ⟨?_, by decide⟩
  rfl

/-- C1 (amended): during a refresh grant, classification type-matches only
the network-origin marker type — network-wrapped failures yield the
network exit class and every other refresh failure, api-wrapped ones
included, defaults to the auth exit class — while during exchange
classifyTokenError maps network-wrapped failures to the network class,
api-wrapped ones to the API class and the rest to the generic failure
class; and every failure of doTokenRequest is network-wrapped (a transport
failure) or api-wrapped. -/
theorem c1_classification_amended (e : GoError)
    (transport : Except GoError (Int × String))
    (readErr closeErr : Option GoError)
    (decoded : Except GoError tokenResponse) (err : GoError) :
    (isNetworkErr e = true →
      classifyRefreshError e = newExitError exitCodeNetwork e) ∧
    (isNetworkErr e = false →
      classifyRefreshError e = newExitError exitCodeAuth e) ∧
    (isNetworkErr e = false → isAPIErr e = true →
      classifyRefreshError e = newExitError exitCodeAuth e ∧
      classifyTokenError e = newExitError exitCodeAPI e) ∧
    (isNetworkErr e = false → isAPIErr e = false →
      classifyTokenError e = newExitError exitCodeFailure e) ∧
    (doTokenRequest transport readErr closeErr decoded = .error err →
      (∃ t, transport = .error t ∧ err = .network t) ∨
        ∃ inner, err = .api inner) := by
  refine ⟨fun h => ?_, fun h => ?_, fun h ha => ?_, fun h ha => ?_,
    fun h => ?_⟩
  · simp [classifyRefreshError, h]
  · simp [classifyRefreshError, h]
  · constructor <;> simp [classifyRefreshError, classifyTokenError, h, ha]
  · simp [classifyTokenError, h, ha]
  · cases transport with
    | error t =>
      left
      refine ⟨t, rfl, ?_⟩
      simp only [doTokenRequest] at h
      exact (Except.error.injEq _ _).mp h.symm
    | ok pair =>
      right
      obtain ⟨status, payload⟩ := pair
      simp only [doTokenRequest] at h
      repeat' split at h
      all_goals first
        | (injection h with h2; exact ⟨_, h2.symm⟩)
        | injection h

/-- C1 witness: the amended classification at concrete network-wrapped and
api-wrapped errors. -/
theorem c1_classification_witness :
    classifyRefreshError (.network (.base "t")) =
      newExitError exitCodeNetwork (.network (.base "t")) ∧
    classifyRefreshError (.api (.base "b")) =
      newExitError exitCodeAuth (.api (.base "b")) ∧
    classifyTokenError (.api (.base "b")) =
      newExitError exitCodeAPI (.api (.base "b")) := by
  refine ⟨?_, ?_, ?_⟩
  · exact (c1_classification_amended (.network (.base "t"))
      (.error (.base "x")) none none (.error (.base "x"))
      (.base "x")).1 (by decide)
  · exact (c1_classification_amended (.api (.base "b"))
      (.error (.base "x")) none none (.error (.base "x"))
      (.base "x")).2.1 (by decide)
  · exact ((c1_classification_amended (.api (.base "b"))
      (.error (.base "x")) none none (.error (.base "x"))
      (.base "x")).2.2.1 (by decide) (by decide)).2

/-- C4: with no usable access token, EnsureAccessToken fails with an
auth-class exit error and zero HTTP calls when the resolved refresh token
is empty (authentication required) or when the environment-resolved client
id or secret is empty (credentials missing); in particular, with no
refresh token and no usable access token it fails immediately with zero
HTTP calls and an untouched store. -/
theorem c4_fail_before_http (env : String → String)
    (rfc3339 : String → Option Int) (fmtRFC3339 : Int → String)
    (projectConfig userConfig : configFile) (state : tokenState)
    (outcome : Except GoError tokenBody) (now : Int) :
    (state.RefreshToken = "" →
      refreshAccessToken env userConfig state outcome now fmtRFC3339 =
        { result := .error (newExitError exitCodeAuth errAuthRequired)
          userConfig := userConfig, savedContents := [], httpCalls := 0 }) ∧
    (state.RefreshToken ≠ "" →
      env envClientID = "" ∨ env envClientSecret = "" →
      refreshAccessToken env userConfig state outcome now fmtRFC3339 =
        { result := .error
            (newExitError exitCodeAuth errClientCredentialsMissing)
          userConfig := userConfig, savedContents := [], httpCalls := 0 }) ∧
    (usableAccessToken now
        (buildTokenState env rfc3339 projectConfig userConfig) = "" →
      (buildTokenState env rfc3339 projectConfig userConfig).RefreshToken
        = "" →
      ensureAccessToken env rfc3339 fmtRFC3339 projectConfig userConfig now
        outcome =
        { result := .error (newExitError exitCodeAuth errAuthRequired)
          userConfig := userConfig, savedContents := [], httpCalls := 0 }) := by
  have hauth : ∀ h : state.RefreshToken = "",
      refreshAccessToken env userConfig state outcome now fmtRFC3339 =
        { result := .error (newExitError exitCodeAuth errAuthRequired)
          userConfig := userConfig, savedContents := [], httpCalls := 0 } :=
    fun h => by simp [refreshAccessToken, h]
  refine ⟨hauth, fun h hcreds => ?_, fun husable hrt => ?_⟩
  · rcases hcreds with hc | hc <;>
      simp [refreshAccessToken, resolveAuthConfig, resolveValue, h, hc]
  · simp only [ensureAccessToken, husable]
    simp [refreshAccessToken, hrt]

/-- C4 witness: with empty environment and empty stores there is no usable
token and no refresh token, and ensureAccessToken fails auth-class with
zero HTTP calls. -/
theorem c4_fail_before_http_witness :
    ensureAccessToken (fun _ => "") (fun _ => none) (fun _ => "")
        emptyConfigFixture emptyConfigFixture 0 (.error (.base "x")) =
      { result := .error (newExitError exitCodeAuth errAuthRequired)
        userConfig := emptyConfigFixture, savedContents := []
        httpCalls := 0 } :=
  (c4_fail_before_http (fun _ => "") (fun _ => none) (fun _ => "")
      emptyConfigFixture emptyConfigFixture stateFixture
      (.error (.base "x")) 0).2.2 rfl rfl

/-- C3: after a successful refresh grant (non-empty refresh token, full
credentials, a successful outcome), the refreshed tokens are written back
to the user store as one persistTokens batch with exactly one Save if and
only if the refresh token's winning tier was "user"; for any other tier
the user store is returned unchanged with no Save. -/
theorem c3_persist_gate (env : String → String) (userConfig : configFile)
    (state : tokenState) (token : tokenBody) (now : Int)
    (fmtRFC3339 : Int → String)
    (hrt : state.RefreshToken ≠ "") (hcid : env envClientID ≠ "")
    (hcs : env envClientSecret ≠ "") :
    (state.RefreshSource = "user" →
      refreshAccessToken env userConfig state (.ok token) now fmtRFC3339 =
        { result := .ok token.AccessToken
          userConfig := (persistTokens userConfig token now fmtRFC3339).1
          savedContents := [(persistTokens userConfig token now fmtRFC3339).2]
          httpCalls := 1 }) ∧
    (state.RefreshSource ≠ "user" →
      refreshAccessToken env userConfig state (.ok token) now fmtRFC3339 =
        { result := .ok token.AccessToken
          userConfig := userConfig, savedContents := [], httpCalls := 1 }) := by
  constructor <;> intro h <;>
    simp [refreshAccessToken, resolveAuthConfig, resolveValue,
      shouldPersistRefreshedTokens, hrt, hcid, hcs, h]

/-- C3 witness: the gate at the user-tier fixture state and at the
project-tier fixture state, with the concrete environment and token. -/
theorem c3_persist_gate_witness :
    refreshAccessToken envFixture emptyConfigFixture stateFixture
        (.ok tokenFixture) 0 (fun _ => "T") =
      { result := .ok tokenFixture.AccessToken
        userConfig :=
          (persistTokens emptyConfigFixture tokenFixture 0 (fun _ => "T")).1
        savedContents :=
          [(persistTokens emptyConfigFixture tokenFixture 0 (fun _ => "T")).2]
        httpCalls := 1 } ∧
    refreshAccessToken envFixture emptyConfigFixture stateProjectFixture
        (.ok tokenFixture) 0 (fun _ => "T") =
      { result := .ok tokenFixture.AccessToken
        userConfig := emptyConfigFixture, savedContents := []
        httpCalls := 1 } := by
  constructor
  · exact (c3_persist_gate envFixture emptyConfigFixture stateFixture
      tokenFixture 0 (fun _ => "T") (by decide) (by decide) (by decide)).1 rfl
  · exact (c3_persist_gate envFixture emptyConfigFixture stateProjectFixture
      tokenFixture 0 (fun _ => "T") (by decide) (by decide) (by decide)).2
      (by decide)

/-- C8: the callback wait consumes exactly one of the three raced
outcomes — delivered code, delivered error, or the 2-minute timeout — and
on every exit path of waitForAuthCode the listener is shut down exactly
once under its own 5-second bound, with a shutdown error joined to a wait
error rather than discarded. -/
theorem c8_wait_discipline (openErr : Option GoError) (outcome : waitOutcome)
    (shutdownErr : Option GoError) (c : String) (e : GoError) :
    (waitForAuthCode openErr outcome shutdownErr).shutdownCalls = 1 ∧
    awaitAuthCode (.code c) = .ok c ∧
    awaitAuthCode (.failure e) = .error e ∧
    awaitAuthCode .timedOut = .error errAuthTimedOut ∧
    (openErr = none → shutdownErr = none →
      (waitForAuthCode openErr outcome shutdownErr).result =
        awaitAuthCode outcome) ∧
    (∀ werr se, openErr = none → shutdownErr = some se →
      awaitAuthCode outcome = .error werr →
      (waitForAuthCode openErr outcome shutdownErr).result =
        .error (.joined werr (.wrap "shutdown auth server" se))) ∧
    (∀ co se, openErr = none → shutdownErr = some se →
      awaitAuthCode outcome = .ok co →
      (waitForAuthCode openErr outcome shutdownErr).result =
        .error (.wrap "shutdown auth server" se)) ∧
    authCallbackTimeoutSec = 120 ∧ authShutdownTimeoutSec = 5 := by
  refine ⟨?_, rfl, rfl, rfl, ?_, ?_, ?_, rfl, rfl⟩
  · cases openErr <;> cases outcome <;> cases shutdownErr <;>
      simp [waitForAuthCode, awaitAuthCode, shutdownAuthServer, joinWith]
  · rintro rfl rfl
    cases outcome <;>
      simp [waitForAuthCode, awaitAuthCode, shutdownAuthServer, joinWith]
  · rintro werr se rfl rfl hw
    cases outcome <;> simp_all [waitForAuthCode, awaitAuthCode,
      shutdownAuthServer, joinWith]
  · rintro co se rfl rfl hw
    cases outcome <;> simp_all [waitForAuthCode, awaitAuthCode,
      shutdownAuthServer, joinWith]

/-- C8 witness: the wait discipline at a delivered code with a clean
shutdown, and at a timeout with a failing shutdown. -/
theorem c8_wait_discipline_witness :
    (waitForAuthCode none (.code "abc") none).result = .ok "abc" ∧
    (waitForAuthCode none .timedOut (some (.base "s"))).result =
      .error (.joined errAuthTimedOut
        (.wrap "shutdown auth server" (.base "s"))) := by
  constructor
  · exact (c8_wait_discipline none (.code "abc") none "abc"
      (.base "x")).2.2.2.2.1 rfl rfl
  · exact (c8_wait_discipline none .timedOut (some (.base "s")) "abc"
      (.base "x")).2.2.2.2.2.1 errAuthTimedOut (.base "s") rfl rfl rfl

/-! ### Split/join round trip (for C6) -/

theorem splitNl_ne_nil (l : List Char) : splitNl l ≠ [] := by
  cases l with
  | nil => simp [splitNl]
  | cons c rest =>
    by_cases hc : c = '\n'
    · simp [splitNl, hc]
    · simp only [splitNl, if_neg hc]
      cases h : splitNl rest <;> simp

theorem joinNl_splitNl (l : List Char) : joinNl (splitNl l) = l := by
  induction l with
  | nil => rfl
  | cons c rest ih =>
    obtain ⟨h, t, hs⟩ := List.exists_cons_of_ne_nil (splitNl_ne_nil rest)
    rw [hs] at ih
    by_cases hc : c = '\n'
    · subst hc
      have hsplit : splitNl ('\n' :: rest) = [] :: h :: t := by
        simp [splitNl, hs]
      rw [hsplit]
      simpa [joinNl] using ih
    · have hsplit : splitNl (c :: rest) = (c :: h) :: t := by
        simp [splitNl, hc, hs]
      rw [hsplit]
      cases t with
      | nil =>
        simp only [joinNl] at ih ⊢
        rw [ih]
      | cons h2 t2 =>
        simp only [joinNl] at ih ⊢
        rw [List.cons_append, ih]

theorem map_data_mk (L : List (List Char)) :
    ((L.map fun l => String.mk l).map String.data) = L := by
  rw [List.map_map]
  induction L with
  | nil => rfl
  | cons a t ih =>
    simp only [List.map_cons, ih]
    rfl

/-- C6: loading any file content and saving without mutation writes back
exactly the original content, modulo a single trailing newline: the saved
content is the original, or the original plus one final newline. -/
theorem c6_load_save_roundtrip (path content : String) :
    ((loadConfigContent path content).Save).2 = content ∨
    ((loadConfigContent path content).Save).2 = content ++ "\n" := by
  have hjoin : goJoinLines (goSplitLines content) = content := by
    unfold goJoinLines goSplitLines
    rw [map_data_mk, joinNl_splitNl]
  have hne : 0 < (goSplitLines content).length := by
    unfold goSplitLines
    simp only [List.length_map]
    exact List.length_pos.mpr (splitNl_ne_nil content.data)
  have hrender : ((loadConfigContent path content).Save).2 =
      (if 0 < (goSplitLines content).length && !hasNlSuffix content
       then content ++ "\n" else content) := by
    show (loadConfigContent path content).renderSave = _
    unfold configFile.renderSave
    rw [show (loadConfigContent path content).Lines = goSplitLines content
      from rfl, hjoin]
  cases hn : hasNlSuffix content
  · right
    rw [hrender, hn]
    simp [hne]
  · left
    rw [hrender, hn]
    simp

/-! ### Splice lemmas (for Unset) -/

theorem splice_length {α : Type} (l : List α) (idx : Nat)
    (hidx : idx < l.length) :
    (l.take idx ++ l.drop (idx + 1)).length + 1 = l.length := by
  simp only [List.length_append, List.length_take, List.length_drop]
  omega

theorem splice_getElem_lt {α : Type} (l : List α) (idx j : Nat)
    (hj : j < idx) (hidx : idx < l.length) :
    (l.take idx ++ l.drop (idx + 1))[j]? = l[j]? := by
  rw [List.getElem?_append_left (by rw [List.length_take]; omega)]
  exact List.getElem?_take_of_lt hj

theorem splice_getElem_gt {α : Type} (l : List α) (idx j : Nat)
    (hij : idx < j) (hj : j < l.length) :
    (l.take idx ++ l.drop (idx + 1))[j - 1]? = l[j]? := by
  have hlen : (l.take idx).length = idx := by
    rw [List.length_take]; omega
  rw [List.getElem?_append_right (by rw [hlen]; omega), hlen,
    List.getElem?_drop]
  congr 1
  omega

/-! ### Unset characterization helpers -/

theorem unset_eq (c : configFile) (key : String) (idx : Nat)
    (hk : c.KeyIndex key = some idx) :
    c.Unset key =
      { c with
        Lines := c.Lines.take idx ++ c.Lines.drop (idx + 1)
        Values := Function.update c.Values key none
        KeyIndex := fun k =>
          match Function.update c.KeyIndex key none k with
          | none => none
          | some i => if idx < i then some (i - 1) else some i } := by
  simp only [configFile.Unset, hk]

theorem unset_keyIndex_self (c : configFile) (key : String) (idx : Nat)
    (hk : c.KeyIndex key = some idx) :
    (c.Unset key).KeyIndex key = none := by
  rw [unset_eq c key idx hk]
  simp [Function.update_same]

theorem unset_keyIndex_ne (c : configFile) (key k : String) (idx j : Nat)
    (hk : c.KeyIndex key = some idx) (hne : k ≠ key)
    (hj : c.KeyIndex k = some j) :
    (c.Unset key).KeyIndex k = some (if idx < j then j - 1 else j) := by
  rw [unset_eq c key idx hk]
  show (match Function.update c.KeyIndex key none k with
    | none => none
    | some i => if idx < i then some (i - 1) else some i) = _
  rw [Function.update_noteq hne, hj]
  by_cases hlt : idx < j <;> simp [hlt]

theorem unset_keyIndex_ne_none (c : configFile) (key k : String) (idx : Nat)
    (hk : c.KeyIndex key = some idx) (hne : k ≠ key)
    (hj : c.KeyIndex k = none) :
    (c.Unset key).KeyIndex k = none := by
  rw [unset_eq c key idx hk]
  show (match Function.update c.KeyIndex key none k with
    | none => none
    | some i => if idx < i then some (i - 1) else some i) = _
  rw [Function.update_noteq hne, hj]

/-! ### Invariant preservation -/

theorem configInv_set (c : configFile) (k v : String) (hinv : configInv c) :
    configInv (c.Set k v) := by
  obtain ⟨hdom, hbound, hinj, henc⟩ := hinv
  cases hk : c.KeyIndex k with
  | some idx =>
    have hidx : idx < c.Lines.length := hbound k idx hk
    have hset : c.Set k v =
        { c with
          Lines := c.Lines.set idx (encodeLine k v)
          Values := Function.update c.Values k (some v) } := by
      simp only [configFile.Set, hk]
    rw [hset]
    refine ⟨fun k' => ?_, fun k' i hi => ?_, hinj, fun k' i hi => ?_⟩
    · by_cases h : k' = k
      · subst h; simp [Function.update_same, hk]
      · simp [Function.update_noteq h, hdom k']
    · simpa [List.length_set] using hbound k' i hi
    · by_cases h : k' = k
      · subst h
        rw [hk] at hi
        injection hi with hi
        subst hi
        exact ⟨encodeLine k' v, List.getElem?_set_self hidx,
          Or.inr ⟨v, rfl⟩⟩
      · have hne : idx ≠ i := fun he => h (hinj k' k i hi (he ▸ hk))
        obtain ⟨line, hline, henck⟩ := henc k' i hi
        exact ⟨line, by rw [List.getElem?_set_ne hne]; exact hline, henck⟩
  | none =>
    have hset : c.Set k v =
        { c with
          Lines := c.Lines ++ [encodeLine k v]
          Values := Function.update c.Values k (some v)
          KeyIndex := Function.update c.KeyIndex k
            (some c.Lines.length) } := by
      simp only [configFile.Set, hk]
    rw [hset]
    refine ⟨fun k' => ?_, fun k' i hi => ?_,
      fun k₁ k₂ i h1 h2 => ?_, fun k' i hi => ?_⟩
    · by_cases h : k' = k
      · subst h; simp [Function.update_same]
      · simp [Function.update_noteq h, hdom k']
    · replace hi : Function.update c.KeyIndex k (some c.Lines.length) k' =
        some i := hi
      show i < (c.Lines ++ [encodeLine k v]).length
      rw [List.length_append]
      by_cases h : k' = k
      · subst h
        rw [Function.update_same] at hi
        injection hi with hi
        simp
        omega
      · rw [Function.update_noteq h] at hi
        have := hbound k' i hi
        simp
        omega
    · replace h1 : Function.update c.KeyIndex k (some c.Lines.length) k₁ =
        some i := h1
      replace h2 : Function.update c.KeyIndex k (some c.Lines.length) k₂ =
        some i := h2
      by_cases h1k : k₁ = k <;> by_cases h2k : k₂ = k
      · rw [h1k, h2k]
      · subst h1k
        rw [Function.update_same] at h1
        rw [Function.update_noteq h2k] at h2
        injection h1 with h1
        have := hbound k₂ i h2
        omega
      · subst h2k
        rw [Function.update_same] at h2
        rw [Function.update_noteq h1k] at h1
        injection h2 with h2
        have := hbound k₁ i h1
        omega
      · rw [Function.update_noteq h1k] at h1
        rw [Function.update_noteq h2k] at h2
        exact hinj k₁ k₂ i h1 h2
    · replace hi : Function.update c.KeyIndex k (some c.Lines.length) k' =
        some i := hi
      show ∃ line, (c.Lines ++ [encodeLine k v])[i]? = some line ∧
        lineEncodesKey line k'
      by_cases h : k' = k
      · subst h
        rw [Function.update_same] at hi
        injection hi with hi
        subst hi
        exact ⟨encodeLine k' v, List.getElem?_concat_length c.Lines _,
          Or.inr ⟨v, rfl⟩⟩
      · rw [Function.update_noteq h] at hi
        obtain ⟨line, hline, henck⟩ := henc k' i hi
        exact ⟨line,
          by rw [List.getElem?_append_left (hbound k' i hi)]; exact hline,
          henck⟩

theorem configInv_unset (c : configFile) (k : String) (hinv : configInv c) :
    configInv (c.Unset k) := by
  obtain ⟨hdom, hbound, hinj, henc⟩ := hinv
  cases hk : c.KeyIndex k with
  | none =>
    have h : c.Unset k = c := by simp [configFile.Unset, hk]
    rw [h]
    exact ⟨hdom, hbound, hinj, henc⟩
  | some idx =>
    have hidx : idx < c.Lines.length := hbound k idx hk
    have hlines : (c.Unset k).Lines =
        c.Lines.take idx ++ c.Lines.drop (idx + 1) := by
      rw [unset_eq c k idx hk]
    have hvals : (c.Unset k).Values = Function.update c.Values k none := by
      rw [unset_eq c k idx hk]
    have hlen : (c.Unset k).Lines.length + 1 = c.Lines.length := by
      rw [hlines]; exact splice_length c.Lines idx hidx
    refine ⟨fun k' => ?_, fun k' i hi => ?_,
      fun k₁ k₂ i h1 h2 => ?_, fun k' i hi => ?_⟩
    · by_cases h : k' = k
      · subst h
        rw [hvals, unset_keyIndex_self c k' idx hk]
        simp [Function.update_same]
      · rw [hvals, Function.update_noteq h]
        cases hj : c.KeyIndex k' with
        | none =>
          rw [unset_keyIndex_ne_none c k k' idx hk h hj]
          simpa [hj] using hdom k'
        | some j =>
          rw [unset_keyIndex_ne c k k' idx j hk h hj]
          simpa [hj] using hdom k'
    · by_cases h : k' = k
      · subst h; rw [unset_keyIndex_self c k' idx hk] at hi; cases hi
      · cases hj : c.KeyIndex k' with
        | none => rw [unset_keyIndex_ne_none c k k' idx hk h hj] at hi; cases hi
        | some j =>
          rw [unset_keyIndex_ne c k k' idx j hk h hj] at hi
          injection hi with hi
          have hjb := hbound k' j hj
          have hji : j ≠ idx := fun he => h (hinj k' k idx (he ▸ hj) hk)
          by_cases hlt : idx < j
          · rw [if_pos hlt] at hi; omega
          · rw [if_neg hlt] at hi; omega
    · by_cases h1k : k₁ = k
      · subst h1k; rw [unset_keyIndex_self c k₁ idx hk] at h1; cases h1
      by_cases h2k : k₂ = k
      · subst h2k; rw [unset_keyIndex_self c k₂ idx hk] at h2; cases h2
      cases hj1 : c.KeyIndex k₁ with
      | none => rw [unset_keyIndex_ne_none c k k₁ idx hk h1k hj1] at h1; cases h1
      | some j1 =>
        cases hj2 : c.KeyIndex k₂ with
        | none =>
          rw [unset_keyIndex_ne_none c k k₂ idx hk h2k hj2] at h2; cases h2
        | some j2 =>
          rw [unset_keyIndex_ne c k k₁ idx j1 hk h1k hj1] at h1
          rw [unset_keyIndex_ne c k k₂ idx j2 hk h2k hj2] at h2
          injection h1 with h1
          injection h2 with h2
          have hji1 : j1 ≠ idx := fun he => h1k (hinj k₁ k idx (he ▸ hj1) hk)
          have hji2 : j2 ≠ idx := fun he => h2k (hinj k₂ k idx (he ▸ hj2) hk)
          have hb1 := hbound k₁ j1 hj1
          have hb2 := hbound k₂ j2 hj2
          have hj12 : j1 = j2 := by
            by_cases hl1 : idx < j1 <;> by_cases hl2 : idx < j2
            · rw [if_pos hl1] at h1; rw [if_pos hl2] at h2; omega
            · rw [if_pos hl1] at h1; rw [if_neg hl2] at h2; omega
            · rw [if_neg hl1] at h1; rw [if_pos hl2] at h2; omega
            · rw [if_neg hl1] at h1; rw [if_neg hl2] at h2; omega
          exact hinj k₁ k₂ j1 hj1 (hj12 ▸ hj2)
    · by_cases h : k' = k
      · subst h; rw [unset_keyIndex_self c k' idx hk] at hi; cases hi
      cases hj : c.KeyIndex k' with
      | none => rw [unset_keyIndex_ne_none c k k' idx hk h hj] at hi; cases hi
      | some j =>
        rw [unset_keyIndex_ne c k k' idx j hk h hj] at hi
        injection hi with hi
        obtain ⟨line, hline, henck⟩ := henc k' j hj
        have hjb := hbound k' j hj
        have hji : j ≠ idx := fun he => h (hinj k' k idx (he ▸ hj) hk)
        refine ⟨line, ?_, henck⟩
        rw [hlines, ← hi]
        by_cases hlt : idx < j
        · rw [if_pos hlt]; rw [splice_getElem_gt c.Lines idx j hlt hjb]
          exact hline
        · rw [if_neg hlt]
          rw [splice_getElem_lt c.Lines idx j (by omega) hidx]
          exact hline

/-! ### Load establishes the invariant -/

theorem parseLinesFrom_inv (allLines : List String) (lines : List String) :
    ∀ (start : Nat) (values : String → Option String)
      (keyIndex : String → Option Nat),
      allLines.drop start = lines →
      (∀ k, (values k).isSome ↔ (keyIndex k).isSome) →
      (∀ k i, keyIndex k = some i → i < start) →
      (∀ k₁ k₂ i, keyIndex k₁ = some i → keyIndex k₂ = some i → k₁ = k₂) →
      (∀ k i, keyIndex k = some i → ∃ line, allLines[i]? = some line ∧
        ∃ v, parseConfigLine line = some { Key := k, Value := v }) →
      (∀ k, ((parseLinesFrom start lines values keyIndex).1 k).isSome ↔
        ((parseLinesFrom start lines values keyIndex).2 k).isSome) ∧
      (∀ k₁ k₂ i, (parseLinesFrom start lines values keyIndex).2 k₁ = some i →
        (parseLinesFrom start lines values keyIndex).2 k₂ = some i →
        k₁ = k₂) ∧
      (∀ k i, (parseLinesFrom start lines values keyIndex).2 k = some i →
        ∃ line, allLines[i]? = some line ∧
          ∃ v, parseConfigLine line = some { Key := k, Value := v }) := by
  induction lines with
  | nil =>
    intro start values keyIndex _ hdom _ hinj henc
    exact ⟨hdom, hinj, henc⟩
  | cons line rest ih =>
    intro start values keyIndex hdrop hdom hstart hinj henc
    have hline : allLines[start]? = some line := by
      have h0 := List.getElem?_drop allLines start 0
      rw [hdrop] at h0
      simpa using h0.symm
    have hrest : allLines.drop (start + 1) = rest := by
      have h1 := List.drop_drop 1 start allLines
      rw [hdrop] at h1
      simpa using h1.symm
    cases hp : parseConfigLine line with
    | none =>
      have heq : parseLinesFrom start (line :: rest) values keyIndex =
          parseLinesFrom (start + 1) rest values keyIndex := by
        simp only [parseLinesFrom, hp]
      rw [heq]
      exact ih (start + 1) values keyIndex hrest hdom
        (fun k i h => Nat.lt_succ_of_lt (hstart k i h)) hinj henc
    | some pair =>
      have heq : parseLinesFrom start (line :: rest) values keyIndex =
          parseLinesFrom (start + 1) rest
            (Function.update values pair.Key (some pair.Value))
            (Function.update keyIndex pair.Key (some start)) := by
        simp only [parseLinesFrom, hp]
      rw [heq]
      refine ih (start + 1) _ _ hrest ?_ ?_ ?_ ?_
      · intro k
        by_cases h : k = pair.Key
        · subst h; simp [Function.update_same]
        · simp [Function.update_noteq h, hdom k]
      · intro k i hi
        by_cases h : k = pair.Key
        · subst h
          rw [Function.update_same] at hi
          injection hi with hi
          omega
        · rw [Function.update_noteq h] at hi
          exact Nat.lt_succ_of_lt (hstart k i hi)
      · intro k₁ k₂ i h1 h2
        by_cases h1k : k₁ = pair.Key <;> by_cases h2k : k₂ = pair.Key
        · rw [h1k, h2k]
        · subst h1k
          rw [Function.update_same] at h1
          rw [Function.update_noteq h2k] at h2
          injection h1 with h1
          have := hstart k₂ i h2
          omega
        · subst h2k
          rw [Function.update_same] at h2
          rw [Function.update_noteq h1k] at h1
          injection h2 with h2
          have := hstart k₁ i h1
          omega
        · rw [Function.update_noteq h1k] at h1
          rw [Function.update_noteq h2k] at h2
          exact hinj k₁ k₂ i h1 h2
      · intro k i hi
        by_cases h : k = pair.Key
        · subst h
          rw [Function.update_same] at hi
          injection hi with hi
          exact ⟨line, hi ▸ hline, pair.Value, hp⟩
        · rw [Function.update_noteq h] at hi
          exact henc k i hi

theorem configInv_load (path content : String) :
    configInv (loadConfigContent path content) := by
  obtain ⟨hdom, hinj, henc⟩ :=
    parseLinesFrom_inv (goSplitLines content) (goSplitLines content) 0
      (fun _ => none) (fun _ => none) rfl (by simp) (by simp) (by simp)
      (by simp)
  refine ⟨hdom, fun k i hi => ?_, hinj, fun k i hi => ?_⟩
  · obtain ⟨line, hline, -⟩ := henc k i hi
    obtain ⟨hlt, -⟩ := List.getElem?_eq_some_iff.mp hline
    exact hlt
  · obtain ⟨line, hline, v, hv⟩ := henc k i hi
    exact ⟨line, hline, Or.inl ⟨v, hv⟩⟩

/-- C10: every store reachable from a successful Load by any sequence of
Set and Unset calls satisfies the invariant: Values and KeyIndex hold the
same key set, every recorded index addresses a line of Lines, distinct
keys hold distinct indices, and each addressed line encodes its key. -/
theorem c10_store_invariant (path content : String) (c : configFile)
    (h : configReachable (loadConfigContent path content) c) :
    configInv c := by
  induction h with
  | refl => exact configInv_load path content
  | set k v _ ih => exact configInv_set _ k v ih
  | unset k _ ih => exact configInv_unset _ k ih

/-- C10 witness: the invariant at a concrete store reached by a Set and
an Unset after loading concrete content. -/
theorem c10_store_invariant_witness :
    configInv (((loadConfigContent "cfg" "a = \"1\"\nb = \"2\"").Set
      "c" "3").Unset "a") :=
  c10_store_invariant "cfg" "a = \"1\"\nb = \"2\"" _
    (configReachable.unset "a"
      (configReachable.set "c" "3" (configReachable.refl _)))

/-- C7: Unset on an absent key changes nothing at all; Unset on a present
key removes exactly the recorded line — the length drops by one, the key
leaves both maps, every other key keeps its value — and afterwards every
remaining key's recorded index (decremented by one exactly when it lay
after the removed line) still addresses that key's own original line. -/
theorem c7_unset_splice (c : configFile) (key : String)
    (hinv : configInv c) :
    (c.KeyIndex key = none → c.Unset key = c) ∧
    (∀ idx, c.KeyIndex key = some idx →
      (c.Unset key).Lines.length + 1 = c.Lines.length ∧
      (c.Unset key).Values key = none ∧
      (c.Unset key).KeyIndex key = none ∧
      (∀ k, k ≠ key → (c.Unset key).Values k = c.Values k) ∧
      (∀ k j, k ≠ key → c.KeyIndex k = some j →
        (c.Unset key).KeyIndex k = some (if idx < j then j - 1 else j) ∧
        (c.Unset key).Lines[(if idx < j then j - 1 else j)]? =
          c.Lines[j]?)) := by
  obtain ⟨hdom, hbound, hinj, henc⟩ := hinv
  refine ⟨fun h => by simp [configFile.Unset, h], fun idx hk => ?_⟩
  have hidx : idx < c.Lines.length := hbound key idx hk
  have hlines : (c.Unset key).Lines =
      c.Lines.take idx ++ c.Lines.drop (idx + 1) := by
    rw [unset_eq c key idx hk]
  refine ⟨by rw [hlines]; exact splice_length c.Lines idx hidx,
    by rw [unset_eq c key idx hk]; simp [Function.update_same],
    unset_keyIndex_self c key idx hk,
    fun k h => by rw [unset_eq c key idx hk]; simp [Function.update_noteq h],
    fun k j hne hj => ?_⟩
  refine ⟨unset_keyIndex_ne c key k idx j hk hne hj, ?_⟩
  have hjb := hbound k j hj
  have hji : j ≠ idx := fun he => hne (hinj k key idx (he ▸ hj) hk)
  rw [hlines]
  by_cases hlt : idx < j
  · rw [if_pos hlt]
    exact splice_getElem_gt c.Lines idx j hlt hjb
  · rw [if_neg hlt]
    exact splice_getElem_lt c.Lines idx j (by omega) hidx

/-- C7 witness: the theorem at a concrete three-key store — removing the
middle key drops one line, later keys shift down by one and earlier keys
stay, all still addressing their own lines — and at an absent key, where
nothing changes. -/
theorem c7_unset_splice_witness :
    ((loadConfigContent "cfg" "a = \"1\"\nb = \"2\"\nc = \"3\"").Unset
        "b").KeyIndex "c" = some 1 ∧
    ((loadConfigContent "cfg" "a = \"1\"\nb = \"2\"\nc = \"3\"").Unset
        "b").Lines[1]? =
      (loadConfigContent "cfg" "a = \"1\"\nb = \"2\"\nc = \"3\"").Lines[2]? ∧
    (loadConfigContent "cfg" "a = \"1\"").Unset "zzz" =
      loadConfigContent "cfg" "a = \"1\"" := by
  have h := c7_unset_splice
    (loadConfigContent "cfg" "a = \"1\"\nb = \"2\"\nc = \"3\"") "b"
    (configInv_load "cfg" "a = \"1\"\nb = \"2\"\nc = \"3\"")
  have hc := (h.2 1 (by decide)).2.2.2.2 "c" 2 (by decide) (by decide)
  refine ⟨?_, ?_, ?_⟩
  · simpa using hc.1
  · simpa using hc.2
  · exact (c7_unset_splice (loadConfigContent "cfg" "a = \"1\"") "zzz"
      (configInv_load "cfg" "a = \"1\"")).1 (by decide)

end WithingsCLI
